import Mathlib

/-!
Verification of the memory-management layer of the ai-character-chat
repository (`profile_manager.py`), shallowly embedded in Lean 4.

The embedding models:
* parsed JSON values (`Json`) as produced by Python's `json.loads`, together
  with the bits of Python dynamic semantics the code relies on (truthiness,
  `dict.get`, iteration, `str.lower`, f-string rendering);
* the user Profile held by `ProfileManager` (`Profile`), together with the
  write-through persistence log (`PMState.saves` records every call to
  `supabase_manager.save_profile`);
* every Profile operation of `ProfileManager`: basic-info upsert/delete,
  preference add/delete, character-memory add/delete, the summaries, context
  assembly, legacy migration, automatic extraction, and memory compaction.

External library / service calls are modelled as explicit parameters:
the Anthropic completion call is an `Except String String` value (error or
returned text), `json.loads` is a `String → Except String Json` oracle, and
the current date string (`datetime.now(JST).strftime("%Y/%m/%d")`) is a
`today : String` parameter.
-/

namespace AIChat

/-- A parsed JSON value, as returned by Python's `json.loads`.  JSON numbers
are modelled as integers (no claim under verification involves non-integral
numbers). Objects are key/value lists in insertion order, mirroring Python
dict ordering. -/
inductive Json where
  | null
  | bool (b : Bool)
  | num (n : Int)
  | str (s : String)
  | arr (elems : List Json)
  | obj (fields : List (String × Json))

/-! ### Character-list string primitives

Python string operations used by `profile_manager.py` (`in`, `split(sep, 1)`,
`lower`, `strip`, `join`) are modelled over `List Char`, the underlying data
of Lean strings. -/

/-- `listStartsWith pat l` : does `l` begin with `pat`? -/
def listStartsWith : List Char → List Char → Bool
  | [], _ => true
  | _ :: _, [] => false
  | a :: as, b :: bs => a == b && listStartsWith as bs

/-- `isSub n h` : Python's `n in h` substring test. -/
def isSub (n : List Char) : List Char → Bool
  | [] => listStartsWith n []
  | c :: t => listStartsWith n (c :: t) || isSub n t

/-- First occurrence split: `splitFirst pat l = some (before, after)` where
`l = before ++ pat ++ after` at the first occurrence of `pat`, or `none` if
`pat` does not occur.  Models Python `l.split(pat, 1)` (yielding parts
`before` and `after`) guarded by `pat in l`. -/
def splitFirst (pat : List Char) : List Char → Option (List Char × List Char)
  | [] => if listStartsWith pat [] then some ([], []) else none
  | c :: t =>
      if listStartsWith pat (c :: t) then some ([], (c :: t).drop pat.length)
      else (splitFirst pat t).map (fun p => (c :: p.1, p.2))

/-- Python `str.lower` over character data (the code only ever lower-cases
for comparison). -/
def toLowerChars (l : List Char) : List Char := l.map Char.toLower

/-- Python `item.split(": ", 1)[1] if ": " in item else item`: strip the
date-stamp prefix of an `events` entry (everything up to and including the
first `": "`). -/
def stripStampChars (l : List Char) : List Char :=
  match splitFirst [':', ' '] l with
  | some p => p.2
  | none => l

/-- Python `str.strip()`: drop leading and trailing whitespace. -/
def trimChars (l : List Char) : List Char :=
  ((l.dropWhile Char.isWhitespace).reverse.dropWhile Char.isWhitespace).reverse

/-- `str.strip()` on strings. -/
def pyStrip (s : String) : String := ⟨trimChars s.data⟩

/-- Python `pat in s` on strings. -/
def pyIn (pat s : String) : Bool := isSub pat.data s.data

/-- Python `sep.join(parts)`. -/
def joinSep (sep : String) : List String → String
  | [] => ""
  | [a] => a
  | a :: rest => a ++ sep ++ joinSep sep rest

mutual
/-- Python `str(v)` for a parsed JSON value (used by f-string interpolation).
Strings render without quotes; containers render via `repr` of elements. -/
def pyStr : Json → String
  | .str s => s
  | v => pyRepr v

/-- Python `repr(v)` for a parsed JSON value. -/
def pyRepr : Json → String
  | .null => "None"
  | .bool b => if b then "True" else "False"
  | .num n => toString n
  | .str s => "\x27" ++ s ++ "\x27"
  | .arr elems => "[" ++ joinSep ", " (pyReprList elems) ++ "]"
  | .obj fields => "\x7b" ++ joinSep ", " (pyReprObj fields) ++ "\x7d"

/-- `repr` of each element of a JSON array. -/
def pyReprList : List Json → List String
  | [] => []
  | v :: vs => pyRepr v :: pyReprList vs

/-- `repr` of each `key: value` pair of a JSON object. -/
def pyReprObj : List (String × Json) → List String
  | [] => []
  | (k, v) :: kvs => ("\x27" ++ k ++ "\x27: " ++ pyRepr v) :: pyReprObj kvs
end

/-- Python truthiness of a parsed JSON value. -/
def pyTruthy : Json → Bool
  | .null => false
  | .bool b => b
  | .num n => n != 0
  | .str s => s != ""
  | .arr elems => !elems.isEmpty
  | .obj fields => !fields.isEmpty

/-- Python `d.get(k)`: `AttributeError` unless `d` is a dict; `None` default. -/
def pyGet (v : Json) (k : String) : Except String Json :=
  match v with
  | .obj fields =>
      match fields.lookup k with
      | some w => .ok w
      | none => .ok .null
  | _ => .error "AttributeError: get"

/-- Python `d.items()`: `AttributeError` unless `d` is a dict. -/
def pyItems (v : Json) : Except String (List (String × Json)) :=
  match v with
  | .obj fields => .ok fields
  | _ => .error "AttributeError: items"

/-- Python `for x in v`: lists yield elements, strings yield one-character
strings, dicts yield their keys; other values raise `TypeError`. -/
def pyIter (v : Json) : Except String (List Json) :=
  match v with
  | .arr elems => .ok elems
  | .str s => .ok (s.data.map (fun c => .str ⟨[c]⟩))
  | .obj fields => .ok (fields.map (fun kv => .str kv.1))
  | _ => .error "TypeError: not iterable"

/-- Python `v.lower()`: `AttributeError` unless `v` is a string. -/
def pyLower (v : Json) : Except String String :=
  match v with
  | .str s => .ok ⟨toLowerChars s.data⟩
  | _ => .error "AttributeError: lower"

/-! ### Data model

The Profile document held by `ProfileManager` after `_migrate_to_new_structure`,
in its nested shape.  `basic_info` values keep their parsed-JSON type because
`update_common_info` stores whatever value extraction produced. -/

/-- One of the three character-memory kinds (`"topics"`, `"events"`,
`"notes"`). -/
inductive MType where
  | topics
  | events
  | notes
deriving DecidableEq

/-- A preference kind (`"likes"` / `"dislikes"`). -/
inductive PKind where
  | likes
  | dislikes
deriving DecidableEq

/-- A per-character memory bucket: the three ordered entry lists. -/
structure Bucket where
  topics : List String
  events : List String
  notes : List String
deriving DecidableEq

/-- The fresh bucket created lazily by `add_character_memory`. -/
def emptyBucket : Bucket := ⟨[], [], []⟩

/-- Read one list of a bucket by kind. -/
def Bucket.get (b : Bucket) : MType → List String
  | .topics => b.topics
  | .events => b.events
  | .notes => b.notes

/-- Replace one list of a bucket by kind. -/
def Bucket.set (b : Bucket) : MType → List String → Bucket
  | .topics, l => { b with topics := l }
  | .events, l => { b with events := l }
  | .notes, l => { b with notes := l }

/-- `common_profile.preferences`. -/
structure Preferences where
  likes : List String
  dislikes : List String
deriving DecidableEq

/-- Read a preference list by kind. -/
def Preferences.get (p : Preferences) : PKind → List String
  | .likes => p.likes
  | .dislikes => p.dislikes

/-- Replace a preference list by kind. -/
def Preferences.set (p : Preferences) : PKind → List String → Preferences
  | .likes, l => { p with likes := l }
  | .dislikes, l => { p with dislikes := l }

/-- `common_profile`: shared basic info and preferences. -/
structure CommonProfile where
  basic_info : List (String × Json)
  preferences : Preferences

/-- The migrated Profile document (`common_profile` + `character_memories`;
`last_updated` is managed by the storage adapter and carries no claim). -/
structure Profile where
  common_profile : CommonProfile
  character_memories : List (String × Bucket)

/-- The freshly initialized empty Profile. -/
def emptyProfile : Profile := ⟨⟨[], ⟨[], []⟩⟩, []⟩

/-- The in-memory manager state: current Profile plus the log of every
`save_profile` call issued to the document store (write-through persistence).
-/
structure PMState where
  profile : Profile
  saves : List Profile

/-- A fresh manager state with an empty Profile and no saves. -/
def emptyState : PMState := ⟨emptyProfile, []⟩

/-- `self.db.save_profile(self.profile)`: append the current Profile to the
persistence log. -/
def saveProfile (st : PMState) : PMState :=
  { st with saves := st.saves ++ [st.profile] }

/-- Python dict upsert `d[k] = v`: overwrite in place if the key exists,
otherwise append (dicts preserve insertion order). -/
def upsert (k : String) (v : Json) : List (String × Json) → List (String × Json)
  | [] => [(k, v)]
  | (k2, v2) :: rest => if k2 == k then (k, v) :: rest else (k2, v2) :: upsert k v rest

/-- Python dict key removal `del d[k]` (first matching key). -/
def removeKey (k : String) : List (String × Json) → List (String × Json)
  | [] => []
  | (k2, v2) :: rest => if k2 == k then rest else (k2, v2) :: removeKey k rest

/-- Upsert of a character's bucket in `character_memories`. -/
def setChar (c : String) (b : Bucket) : List (String × Bucket) → List (String × Bucket)
  | [] => [(c, b)]
  | (c2, b2) :: rest => if c2 == c then (c, b) :: rest else (c2, b2) :: setChar c b rest

/-- Replace a Profile's `basic_info`. -/
def Profile.withBasicInfo (p : Profile) (bi : List (String × Json)) : Profile :=
  { p with common_profile := { p.common_profile with basic_info := bi } }

/-- Replace one of a Profile's preference lists. -/
def Profile.withPrefList (p : Profile) (k : PKind) (l : List String) : Profile :=
  { p with common_profile := { p.common_profile with preferences := p.common_profile.preferences.set k l } }

/-- Replace a Profile's `character_memories`. -/
def Profile.withCharMems (p : Profile) (cm : List (String × Bucket)) : Profile :=
  { p with character_memories := cm }

/-! ### Memory Store operations (`ProfileManager`) -/

/-- `update_common_info(key, value)`: upsert into `basic_info`, then save. -/
def updateCommonInfo (k : String) (v : Json) (st : PMState) : PMState :=
  let p2 := st.profile.withBasicInfo (upsert k v st.profile.common_profile.basic_info)
  saveProfile { st with profile := p2 }

/-- `delete_common_info(key)`: remove the key if present and save; report
whether it was present. -/
def deleteCommonInfo (k : String) (st : PMState) : Bool × PMState :=
  if (st.profile.common_profile.basic_info.lookup k).isSome then
    let p2 := st.profile.withBasicInfo (removeKey k st.profile.common_profile.basic_info)
    (true, saveProfile { st with profile := p2 })
  else (false, st)

/-- `add_common_preference(item, preference_type)`: exact-match check, then
case-insensitive check; append and save only when no duplicate exists. -/
def addCommonPreference (item : String) (k : PKind) (st : PMState) : Bool × PMState :=
  let items := st.profile.common_profile.preferences.get k
  if items.contains item then (false, st)
  else if items.any (fun e => toLowerChars e.data == toLowerChars item.data) then
    (false, st)
  else
    let p2 := st.profile.withPrefList k (items ++ [item])
    (true, saveProfile { st with profile := p2 })

/-- `delete_common_preference(item, preference_type)`: exact-match removal of
the first occurrence; save only when found. -/
def deleteCommonPreference (item : String) (k : PKind) (st : PMState) : Bool × PMState :=
  let items := st.profile.common_profile.preferences.get k
  if items.contains item then
    let p2 := st.profile.withPrefList k (items.erase item)
    (true, saveProfile { st with profile := p2 })
  else (false, st)

/-- Lazy bucket creation (`if character_name not in self.profile[...]`):
insert an empty bucket for the character if absent (in-memory mutation only,
no save). -/
def ensureBucket (c : String) (st : PMState) : PMState :=
  if (st.profile.character_memories.lookup c).isSome then st
  else
    { st with profile := st.profile.withCharMems (st.profile.character_memories ++ [(c, emptyBucket)]) }

/-- Normalization of a stored entry for comparison: strip the date stamp for
`events` entries containing `": "`, then lower-case. -/
def normStored (isEv : Bool) (e : List Char) : List Char :=
  toLowerChars (if isEv then stripStampChars e else e)

/-- The similarity check of `add_character_memory`'s loop body for one
existing entry: the normalized stored entry equals the lower-cased
candidate, or the shorter of the two is contained in the longer. -/
def dupCheck (isEv : Bool) (cl e : List Char) : Bool :=
  let ec := normStored isEv e
  ec == cl || (if cl.length < ec.length then isSub cl ec else isSub ec cl)

/-- `add_character_memory(character_name, memory_type, content)`.

`today` stands for `datetime.now(JST).strftime("%Y/%m/%d")`.  For `events`
the stamped entry is `today ++ ": " ++ content`.  Faithfully to the source,
the final `memories.append(content_with_timestamp)` refers to a variable
only assigned in the `events` branch: for `topics`/`notes` a non-duplicate
insert raises `UnboundLocalError`, modelled as an `Except.error` carrying
the in-memory state reached at that point. -/
def addCharacterMemory (today c : String) (mt : MType) (content : Json)
    (st : PMState) : Except String Bool × PMState :=
  let st1 := ensureBucket c st
  let b := ((st1.profile.character_memories.lookup c).getD emptyBucket)
  let memories := b.get mt
  let stamped := today ++ ": " ++ pyStr content
  if mt = .events && memories.contains stamped then (.ok false, st1)
  else
    match pyLower content with
    | .error e => (.error e, st1)
    | .ok cl =>
      if memories.any (fun e => dupCheck (mt = .events) cl.data e.data) then
        (.ok false, st1)
      else
        match mt with
        | .events =>
            let p2 := st1.profile.withCharMems (setChar c (b.set mt (memories ++ [stamped])) st1.profile.character_memories)
            (.ok true, saveProfile { st1 with profile := p2 })
        | _ => (.error "UnboundLocalError: content_with_timestamp", st1)

/-- `delete_character_memory(character_name, memory_type, index)`: positional
delete; save only when the bucket exists and the index is in range. -/
def deleteCharacterMemory (c : String) (mt : MType) (i : Int) (st : PMState) :
    Bool × PMState :=
  match st.profile.character_memories.lookup c with
  | none => (false, st)
  | some b =>
      let memories := b.get mt
      if 0 ≤ i ∧ i < memories.length then
        let p2 := st.profile.withCharMems (setChar c (b.set mt (memories.eraseIdx i.toNat)) st.profile.character_memories)
        (true, saveProfile { st with profile := p2 })
      else (false, st)

/-! ### Summaries and context assembly -/

/-- The sentinel returned by `get_common_profile_summary` when nothing is
stored. -/
def noInfoSentinel : String := "（まだ情報がありません）"

/-- The sentinel returned by `get_character_memory_summary` when the
character has no bucket or all lists are empty. -/
def noMemorySentinel : String := "（まだ記憶がありません）"

/-- `get_common_profile_summary()`: render basic info, likes and dislikes as
joined display lines, or the no-info sentinel when everything is empty. -/
def getCommonProfileSummary (p : Profile) : String :=
  let c := p.common_profile
  let biPart : List String :=
    if c.basic_info.isEmpty then []
    else "【基本情報】" :: c.basic_info.map (fun kv => "- " ++ kv.1 ++ ": " ++ pyStr kv.2)
  let likesPart : List String :=
    if c.preferences.likes.isEmpty then []
    else ["\n【好きなもの】\n- " ++ joinSep "、" c.preferences.likes]
  let dislikesPart : List String :=
    if c.preferences.dislikes.isEmpty then []
    else ["\n【苦手なもの】\n- " ++ joinSep "、" c.preferences.dislikes]
  let summary := biPart ++ likesPart ++ dislikesPart
  if summary.isEmpty then noInfoSentinel else joinSep "\n" summary

/-- `get_character_memory_summary(character_name)`: topics (all), events
(last 5), notes (all), or the no-memory sentinel. -/
def getCharacterMemorySummary (p : Profile) (c : String) : String :=
  match p.character_memories.lookup c with
  | none => noMemorySentinel
  | some b =>
      let topicsPart : List String :=
        if b.topics.isEmpty then []
        else "【話したトピック】" :: b.topics.map (fun t => "- " ++ t)
      let eventsPart : List String :=
        if b.events.isEmpty then []
        else "\n【重要な出来事】" :: (b.events.drop (b.events.length - 5)).map (fun e => "- " ++ e)
      let notesPart : List String :=
        if b.notes.isEmpty then []
        else "\n【メモ】" :: b.notes.map (fun n => "- " ++ n)
      let summary := topicsPart ++ eventsPart ++ notesPart
      if summary.isEmpty then noMemorySentinel else joinSep "\n" summary

/-- `get_full_context_for_character(character_name)`: headers plus the two
summaries when non-sentinel; `None` when both are sentinels. -/
def getFullContextForCharacter (p : Profile) (c : String) : Option String :=
  let commonSummary := getCommonProfileSummary p
  let charSummary := getCharacterMemorySummary p c
  let ctx1 : List String :=
    if commonSummary ≠ noInfoSentinel then
      ["【ユーザーの基本情報（全キャラクター共通）】", commonSummary]
    else []
  let ctx2 : List String :=
    if charSummary ≠ noMemorySentinel then
      ["\n【" ++ c ++ "との記憶】", charSummary]
    else []
  let ctx := ctx1 ++ ctx2
  if ctx.isEmpty then none else some (joinSep "\n" ctx)

/-! ### Legacy migration (`_migrate_to_new_structure`)

`load_profile` always yields a JSON object (either the stored
`profile_data` document or the flat defaults it initializes), so migration
is modelled on the object's key/value list.  The `try` body below is total
(every `.get` carries a default and every branch guards with `isinstance`),
so the `except` fallback that rebuilds a fresh profile is unreachable and
has no Lean counterpart. -/

/-- Does the object have the key? (Python `k in d`.) -/
def hasKey (doc : List (String × Json)) (k : String) : Bool :=
  (doc.lookup k).isSome

/-- Python `d.get(k, default)` on the document object. -/
def getDefault (doc : List (String × Json)) (k : String) (dflt : Json) : Json :=
  match doc.lookup k with
  | some v => v
  | none => dflt

/-- `_migrate_to_new_structure`: a document that already has both
`common_profile` and `character_memories` is returned unchanged; otherwise a
nested document is built, keeping `basic_info` (if it is a dict) and the
`likes`/`dislikes` members of `preferences` (if it is a dict), preserving
`last_updated`, and dropping every other legacy key. -/
def migrateToNewStructure (doc : List (String × Json)) : List (String × Json) :=
  if hasKey doc "common_profile" && hasKey doc "character_memories" then doc
  else
    let oldBasicInfo := getDefault doc "basic_info" (Json.obj [])
    let oldPreferences := getDefault doc "preferences" (Json.obj [("likes", Json.arr []), ("dislikes", Json.arr [])])
    let newBasicInfo := match oldBasicInfo with
      | Json.obj kvs => Json.obj kvs
      | _ => Json.obj []
    let newLikes := match oldPreferences with
      | Json.obj kvs => getDefault kvs "likes" (Json.arr [])
      | _ => Json.arr []
    let newDislikes := match oldPreferences with
      | Json.obj kvs => getDefault kvs "dislikes" (Json.arr [])
      | _ => Json.arr []
    [("common_profile", Json.obj [("basic_info", newBasicInfo), ("preferences", Json.obj [("likes", newLikes), ("dislikes", newDislikes)])]),
     ("character_memories", Json.obj []),
     ("last_updated", getDefault doc "last_updated" Json.null)]

/-! ### Automatic extraction (`extract_info_from_conversation`)

The single Anthropic completion call is abstracted as a
`response : Except String String` parameter (API error or returned text) and
`json.loads` as a `jsonLoads : String → Except String Json` oracle.  The
extraction-prompt construction (pure string templating whose value only
feeds the abstracted call) is elided.  Mutating steps run inside the `try`
body: the first raised exception stops processing but keeps every mutation
already performed (the `except` clause is a bare `pass`), which the
`Except String Unit × PMState` result type captures. -/

/-- One transcript entry. -/
structure Msg where
  role : String
  content : String

/-- Sequencing inside the `try` body: stop at the first raised exception,
keeping the state reached so far. -/
def seqE (r : Except String Unit × PMState)
    (f : PMState → Except String Unit × PMState) : Except String Unit × PMState :=
  match r with
  | (.error e, st) => (.error e, st)
  | (.ok _, st) => f st

/-- `for x in xs: f(x)` inside the `try` body. -/
def foldE (f : Json → PMState → Except String Unit × PMState) :
    List Json → PMState → Except String Unit × PMState
  | [], st => (.ok (), st)
  | x :: xs, st => seqE (f x st) (foldE f xs)

/-- `if d.get(k): <use d[k]>` — propagate `AttributeError` when `d` is not a
dict, skip when the value is missing/falsy, otherwise run the body on it. -/
def withGet (v : Json) (k : String)
    (f : Json → PMState → Except String Unit × PMState)
    (st : PMState) : Except String Unit × PMState :=
  match pyGet v k with
  | .error e => (.error e, st)
  | .ok w => if pyTruthy w then f w st else (.ok (), st)

/-- `for item in v: f(item)` — `TypeError` when `v` is not iterable. -/
def withIter (v : Json) (f : Json → PMState → Except String Unit × PMState)
    (st : PMState) : Except String Unit × PMState :=
  match pyIter v with
  | .error e => (.error e, st)
  | .ok xs => foldE f xs st

/-- `self.update_common_info(key, value)` inside extraction (never raises). -/
def applyBasicInfoItem (kv : String × Json) (st : PMState) :
    Except String Unit × PMState :=
  (.ok (), updateCommonInfo kv.1 kv.2 st)

/-- `self.add_common_preference(item, kind)` inside extraction.  A non-string
item fails the exact-membership check (the stored lists hold strings) and
then raises `AttributeError` at `item.lower()`. -/
def applyPrefItem (k : PKind) (item : Json) (st : PMState) :
    Except String Unit × PMState :=
  match item with
  | .str s => (.ok (), (addCommonPreference s k st).2)
  | _ => (.error "AttributeError: lower", st)

/-- `self.add_character_memory(character_name, kind, item)` inside
extraction; its exceptions (including the `UnboundLocalError` of the
`topics`/`notes` append) propagate to the surrounding `try`. -/
def applyCharMemItem (today c : String) (mt : MType) (item : Json)
    (st : PMState) : Except String Unit × PMState :=
  match addCharacterMemory today c mt item st with
  | (.error e, st2) => (.error e, st2)
  | (.ok _, st2) => (.ok (), st2)

/-- The `extracted.get("common")` block: basic info, likes, dislikes.  The
`for key, value in basic_info.items()` loop raises nothing itself
(`update_common_info` always succeeds), so it is a plain fold. -/
def applyCommonBlock (common : Json) (st : PMState) : Except String Unit × PMState :=
  seqE (withGet common "basic_info"
      (fun bi st2 =>
        match pyItems bi with
        | .error e => (.error e, st2)
        | .ok kvs => (.ok (), kvs.foldl (fun s kv => updateCommonInfo kv.1 kv.2 s) st2))
      st)
    (fun st2 =>
      seqE (withGet common "likes" (fun lv => withIter lv (applyPrefItem .likes)) st2)
        (withGet common "dislikes" (fun dv => withIter dv (applyPrefItem .dislikes))))

/-- The `extracted.get("character_specific")` block: topics, events, notes. -/
def applyCharBlock (today c : String) (cs : Json) (st : PMState) :
    Except String Unit × PMState :=
  seqE (withGet cs "topics" (fun v => withIter v (applyCharMemItem today c .topics)) st)
    (fun st2 =>
      seqE (withGet cs "events" (fun v => withIter v (applyCharMemItem today c .events)) st2)
        (withGet cs "notes" (fun v => withIter v (applyCharMemItem today c .notes))))

/-- Application of a successfully parsed extraction result. -/
def applyExtracted (today c : String) (extracted : Json) (st : PMState) :
    Except String Unit × PMState :=
  seqE (withGet extracted "common" applyCommonBlock st)
    (withGet extracted "character_specific" (applyCharBlock today c))

/-- The code-fence stripping of the raw response text:
`result_text.strip()`, then if ```` ```json ```` occurs, the text between it
and the next fence, stripped; else if ```` ``` ```` occurs, likewise. -/
def extractResultText (raw : String) : String :=
  let t := pyStrip raw
  let fenceJson : List Char := ['`', '`', '`', 'j', 's', 'o', 'n']
  let fence : List Char := ['`', '`', '`']
  match splitFirst fenceJson t.data with
  | some p =>
      match splitFirst fence p.2 with
      | some q => pyStrip ⟨q.1⟩
      | none => pyStrip ⟨p.2⟩
  | none =>
      match splitFirst fence t.data with
      | some p =>
          match splitFirst fence p.2 with
          | some q => pyStrip ⟨q.1⟩
          | none => pyStrip ⟨p.2⟩
      | none => t

/-- `extract_info_from_conversation(character_name, messages)`: no-op below
4 transcript entries; the capability response is parsed (after fence
stripping) and applied step by step; any API error, parse failure, or
exception raised while applying is swallowed (`except: pass`), keeping
whatever mutations already happened. -/
def extractInfoFromConversation (today c : String) (messages : List Msg)
    (response : Except String String)
    (jsonLoads : String → Except String Json) (st : PMState) : PMState :=
  if messages.length < 4 then st
  else
    match response with
    | .error _ => st
    | .ok raw =>
        match jsonLoads (extractResultText raw) with
        | .error _ => st
        | .ok extracted => (applyExtracted today c extracted st).2

/-! ### Compaction (`optimize_memories` / `_summarize_memories`)

The summarization completion call is abstracted as an
`api : String → Except String String` oracle applied to the prompt the code
builds. -/

/-- The `type_names` display table. -/
def typeName : MType → String
  | .topics => "話題"
  | .events => "出来事"
  | .notes => "メモ"

/-- The summarization prompt built by `_summarize_memories` (the f-string
keeps the source's literal indentation). -/
def summarizePrompt (c : String) (mt : MType) (items : List String) : String :=
  "以下は" ++ c ++ "との会話で記録された" ++ typeName mt ++ "です。\n    これらを簡潔に要約してください（3-5行程度）。\n\n    " ++ joinSep "\n" (items.map (fun item => "- " ++ item)) ++ "\n\n    要約:"

/-- `_summarize_memories(character_name, memory_type, items)`: the stripped
capability response, or on any capability error the synthetic fallback
`"<count>件の<type-name>（詳細は省略）"`. -/
def summarizeMemories (api : String → Except String String) (c : String)
    (mt : MType) (items : List String) : String :=
  match api (summarizePrompt c mt items) with
  | .ok t => pyStrip t
  | .error _ => toString items.length ++ "件の" ++ typeName mt ++ "（詳細は省略）"

/-- The deduplication pass of `optimize_memories`: keep the first occurrence
of each stamp-stripped (for events), lower-cased key, in order.  `seen` is
the running set of keys already kept. -/
def dedupMems (isEv : Bool) : List String → List (List Char) → List String
  | [], _ => []
  | item :: rest, seen =>
      let content := toLowerChars (if isEv then stripStampChars item.data else item.data)
      if seen.contains content then dedupMems isEv rest seen
      else item :: dedupMems isEv rest (content :: seen)

/-- Compaction statistics (`{"deleted": .., "summarized": ..}`). -/
structure OptStats where
  deleted : Nat
  summarized : Nat
deriving DecidableEq

/-- One list's pass of `optimize_memories`: lists with at most 10 entries are
skipped; otherwise deduplicate, and if more than 50 unique entries remain,
summarize all but the newest 20 into a single `"[要約] "`-prefixed entry
prepended before them.  Returns the new list with the counts of removed
duplicates and summarized entries. -/
def compactOne (api : String → Except String String) (c : String) (mt : MType)
    (items : List String) : List String × OptStats :=
  if items.length ≤ 10 then (items, ⟨0, 0⟩)
  else
    let uniqueItems := dedupMems (mt = .events) items []
    let deleted := items.length - uniqueItems.length
    if uniqueItems.length > 50 then
      let oldItems := uniqueItems.take (uniqueItems.length - 20)
      let newItems := uniqueItems.drop (uniqueItems.length - 20)
      let summary := summarizeMemories api c mt oldItems
      (("[要約] " ++ summary) :: newItems, ⟨deleted, oldItems.length⟩)
    else (uniqueItems, ⟨deleted, 0⟩)

/-- `optimize_memories(character_name)`: no-op stats for an unknown
character; otherwise compact the three lists independently, store the new
bucket, save once, and return the summed statistics. -/
def optimizeMemories (api : String → Except String String) (c : String)
    (st : PMState) : OptStats × PMState :=
  match st.profile.character_memories.lookup c with
  | none => (⟨0, 0⟩, st)
  | some b =>
      let rT := compactOne api c .topics b.topics
      let rE := compactOne api c .events b.events
      let rN := compactOne api c .notes b.notes
      let b2 : Bucket := ⟨rT.1, rE.1, rN.1⟩
      let p2 := st.profile.withCharMems (setChar c b2 st.profile.character_memories)
      let stats : OptStats := ⟨rT.2.deleted + rE.2.deleted + rN.2.deleted, rT.2.summarized + rE.2.summarized + rN.2.summarized⟩
      (stats, saveProfile { st with profile := p2 })

/-! ### Derived notions used by the verified properties -/

/-- The current entry list of one character-memory kind (empty when the
character has no bucket yet). -/
def memListOf (st : PMState) (c : String) (mt : MType) : List String :=
  ((st.profile.character_memories.lookup c).getD emptyBucket).get mt

/-- The spec's near-duplicate relation between a candidate `content` and a
stored entry `e`: after lower-casing both and stripping the date-stamp
prefix of stored `events` entries, one string is a substring of the other. -/
def nearDup (mt : MType) (content e : String) : Prop :=
  isSub (toLowerChars content.data) (normStored (decide (mt = .events)) e.data) = true ∨
  isSub (normStored (decide (mt = .events)) e.data) (toLowerChars content.data) = true

instance (mt : MType) (content e : String) : Decidable (nearDup mt content e) := by
  unfold nearDup
  infer_instance

/-- A preference-list mutation through the Memory Store. -/
inductive PrefOp where
  | add (item : String) (k : PKind)
  | del (item : String) (k : PKind)

/-- Run one preference mutation (result discarded). -/
def applyPrefOp (op : PrefOp) (st : PMState) : PMState :=
  match op with
  | .add item k => (addCommonPreference item k st).2
  | .del item k => (deleteCommonPreference item k st).2

/-- Run a sequence of preference mutations. -/
def applyPrefOps (ops : List PrefOp) (st : PMState) : PMState :=
  ops.foldl (fun s op => applyPrefOp op s) st

/-- No two case-insensitively-equal strings in the list. -/
def noCaseDups (l : List String) : Prop :=
  l.Pairwise (fun a b => toLowerChars a.data ≠ toLowerChars b.data)

/-- The preference invariant: neither `likes` nor `dislikes` contains two
case-insensitively-equal strings. -/
def prefInvariant (st : PMState) : Prop :=
  noCaseDups st.profile.common_profile.preferences.likes ∧
  noCaseDups st.profile.common_profile.preferences.dislikes

/-- Nothing is stored in the common profile. -/
def commonEmpty (p : Profile) : Prop :=
  p.common_profile.basic_info = [] ∧
  p.common_profile.preferences.likes = [] ∧
  p.common_profile.preferences.dislikes = []

/-- The character has no memory: no bucket, or a bucket with all three lists
empty. -/
def charMemoryEmpty (p : Profile) (c : String) : Prop :=
  p.character_memories.lookup c = none ∨
  p.character_memories.lookup c = some emptyBucket

/-! ### Concrete inputs for witnesses and counterexamples -/

/-- A state whose `notes` bucket for Aria holds one entry. -/
def jazzState : PMState :=
  ⟨⟨⟨[], ⟨[], []⟩⟩, [("Aria", ⟨[], [], ["Likes jazz music"]⟩)]⟩, []⟩

/-- A 4-entry transcript (the extraction threshold). -/
def msgs4 : List Msg :=
  [⟨"user", "a"⟩, ⟨"assistant", "b"⟩, ⟨"user", "c"⟩, ⟨"assistant", "d"⟩]

/-- A syntactically valid but wrong-shaped extraction result: `likes` is a
proper string list but `dislikes` is a number, which raises `TypeError` when
iterated. -/
def badShapeJson : Json :=
  .obj [("common", .obj [("likes", .arr [.str "tea"]), ("dislikes", .num 5)])]

/-- 60 pairwise-distinct, already-lower-case memory entries. -/
def m60 : List String :=
  ["m00", "m01", "m02", "m03", "m04", "m05", "m06", "m07", "m08", "m09",
   "m10", "m11", "m12", "m13", "m14", "m15", "m16", "m17", "m18", "m19",
   "m20", "m21", "m22", "m23", "m24", "m25", "m26", "m27", "m28", "m29",
   "m30", "m31", "m32", "m33", "m34", "m35", "m36", "m37", "m38", "m39",
   "m40", "m41", "m42", "m43", "m44", "m45", "m46", "m47", "m48", "m49",
   "m50", "m51", "m52", "m53", "m54", "m55", "m56", "m57", "m58", "m59"]

/-- A state holding the 60-entry topics list for Aria. -/
def m60State : PMState := ⟨⟨⟨[], ⟨[], []⟩⟩, [("Aria", ⟨m60, [], []⟩)]⟩, []⟩

/-- The legacy flat profile document of the spec's migration example. -/
def legacyAlexDoc : List (String × Json) :=
  [("basic_info", .obj [("name", .str "Alex")]),
   ("preferences", .obj [("likes", .arr [.str "tea"])])]

/-! ## Lemmas on the string primitives -/

theorem listStartsWith_refl (l : List Char) : listStartsWith l l = true := by
  induction l with
  | nil => rfl
  | cons a t ih => simp [listStartsWith, ih]

theorem listStartsWith_length {n h : List Char} (hs : listStartsWith n h = true) :
    n.length ≤ h.length := by
  induction n generalizing h with
  | nil => simp
  | cons a t ih =>
      cases h with
      | nil => simp [listStartsWith] at hs
      | cons b u =>
          simp only [listStartsWith, Bool.and_eq_true] at hs
          simpa using ih hs.2

theorem listStartsWith_eq_of_length {n h : List Char}
    (hs : listStartsWith n h = true) (hl : n.length = h.length) : n = h := by
  induction n generalizing h with
  | nil => cases h with
      | nil => rfl
      | cons b u => simp at hl
  | cons a t ih =>
      cases h with
      | nil => simp [listStartsWith] at hs
      | cons b u =>
          simp only [listStartsWith, Bool.and_eq_true, beq_iff_eq] at hs
          simp only [List.length_cons, Nat.succ.injEq] at hl
          exact hs.1 ▸ congrArg (a :: ·) (ih hs.2 hl) ▸ rfl

theorem isSub_of_listStartsWith {n h : List Char}
    (hs : listStartsWith n h = true) : isSub n h = true := by
  cases h with
  | nil => simpa [isSub] using hs
  | cons c t => simp [isSub, hs]

theorem isSub_refl (l : List Char) : isSub l l = true :=
  isSub_of_listStartsWith (listStartsWith_refl l)

theorem isSub_length {n h : List Char} (hs : isSub n h = true) :
    n.length ≤ h.length := by
  induction h with
  | nil => exact listStartsWith_length (by simpa [isSub] using hs)
  | cons c t ih =>
      simp only [isSub, Bool.or_eq_true] at hs
      rcases hs with hs | hs
      · exact listStartsWith_length hs
      · exact Nat.le_trans (ih hs) (by simp)

theorem isSub_eq_of_length {n h : List Char} (hs : isSub n h = true)
    (hl : n.length = h.length) : n = h := by
  induction h with
  | nil => exact listStartsWith_eq_of_length (by simpa [isSub] using hs) hl
  | cons c t ih =>
      simp only [isSub, Bool.or_eq_true] at hs
      rcases hs with hs | hs
      · exact listStartsWith_eq_of_length hs hl
      · have := isSub_length hs
        simp only [List.length_cons] at hl
        omega

theorem listStartsWith_append (n rest : List Char) :
    listStartsWith n (n ++ rest) = true := by
  induction n with
  | nil => rfl
  | cons a t ih => simp [listStartsWith, ih]

theorem isSub_suffix (p c : List Char) : isSub c (p ++ c) = true := by
  induction p with
  | nil => simpa using isSub_refl c
  | cons a t ih => simp [isSub, ih]

/-- In `before ++ ": " ++ cs`, the part after the first `": "` is a suffix
of the form `pre ++ cs`. -/
theorem splitFirst_colonSpace (td cs : List Char) :
    ∃ b pre, splitFirst [':', ' '] (td ++ ':' :: ' ' :: cs) = some (b, pre ++ cs) := by
  induction td with
  | nil =>
      refine ⟨[], [], ?_⟩
      simp [splitFirst, listStartsWith]
  | cons a t ih =>
      rcases ih with ⟨b, pre, hsp⟩
      by_cases hsw : listStartsWith [':', ' '] (a :: (t ++ ':' :: ' ' :: cs)) = true
      · cases t with
        | nil =>
            simp only [listStartsWith, List.nil_append, Bool.and_eq_true, beq_iff_eq] at hsw
            rcases hsw with ⟨rfl, hsw⟩
            simp at hsw
        | cons a2 t2 =>
            simp only [listStartsWith, List.cons_append, Bool.and_eq_true, beq_iff_eq] at hsw
            rcases hsw with ⟨rfl, rfl, -⟩
            refine ⟨[], t2 ++ [':', ' '], ?_⟩
            simp [splitFirst, listStartsWith]
      · refine ⟨a :: b, pre, ?_⟩
        simp only [List.cons_append, splitFirst]
        rw [if_neg (by simpa using hsw), List.append_eq, hsp]
        rfl

theorem stripStampChars_stamped (td cs : List Char) :
    ∃ pre, stripStampChars (td ++ ':' :: ' ' :: cs) = pre ++ cs := by
  rcases splitFirst_colonSpace td cs with ⟨b, pre, hsp⟩
  exact ⟨pre, by simp [stripStampChars, hsp]⟩

/-- The loop's duplicate check is exactly the spec's symmetric substring
relation on the normalized strings. -/
theorem dupCheck_iff (isEv : Bool) (cl e : List Char) :
    dupCheck isEv cl e = true ↔
      (isSub cl (normStored isEv e) = true ∨ isSub (normStored isEv e) cl = true) := by
  unfold dupCheck
  constructor
  · intro hd
    simp only [Bool.or_eq_true, beq_iff_eq] at hd
    rcases hd with hd | hd
    · exact Or.inl (hd ▸ isSub_refl _)
    · by_cases hlt : cl.length < (normStored isEv e).length
      · rw [if_pos hlt] at hd; exact Or.inl hd
      · rw [if_neg hlt] at hd; exact Or.inr hd
  · intro hd
    simp only [Bool.or_eq_true, beq_iff_eq]
    by_cases hlt : cl.length < (normStored isEv e).length
    · rcases hd with hd | hd
      · exact Or.inr (by rw [if_pos hlt]; exact hd)
      · have := isSub_length hd; omega
    · rcases hd with hd | hd
      · have hle := isSub_length hd
        exact Or.inl (isSub_eq_of_length hd (by omega)).symm
      · exact Or.inr (by rw [if_neg hlt]; exact hd)

/-! ## Lemmas on bucket bookkeeping -/

theorem string_data_append (a b : String) : (a ++ b).data = a.data ++ b.data := rfl

theorem lookup_append_singleton {l : List (String × Bucket)} {c : String}
    {b : Bucket} (h : l.lookup c = none) : (l ++ [(c, b)]).lookup c = some b := by
  induction l with
  | nil => simp [List.lookup]
  | cons kv t ih =>
      obtain ⟨k, v⟩ := kv
      cases hc : (c == k) with
      | true => simp only [List.lookup, hc] at h; exact Option.noConfusion h
      | false =>
          simp only [List.cons_append, List.lookup, hc] at h ⊢
          exact ih h

theorem lookup_ensure (c : String) (st : PMState) :
    (ensureBucket c st).profile.character_memories.lookup c =
      some ((st.profile.character_memories.lookup c).getD emptyBucket) := by
  unfold ensureBucket
  cases h : st.profile.character_memories.lookup c with
  | some b => simp [h]
  | none => simp [h, Profile.withCharMems, lookup_append_singleton h]

theorem ensure_saves (c : String) (st : PMState) :
    (ensureBucket c st).saves = st.saves := by
  unfold ensureBucket
  split <;> rfl

theorem ensure_of_some {c : String} {st : PMState}
    (h : (st.profile.character_memories.lookup c).isSome) :
    ensureBucket c st = st := by
  unfold ensureBucket
  exact if_pos h

theorem memListOf_ensure (c : String) (st : PMState) (c2 : String) (mt : MType) :
    memListOf (ensureBucket c st) c2 mt = memListOf st c2 mt := by
  unfold ensureBucket
  cases h : st.profile.character_memories.lookup c with
  | some b => simp [h]
  | none =>
      simp only [h, Option.isSome_none, Bool.false_eq_true, if_false]
      unfold memListOf
      by_cases hc : c2 = c
      · subst hc
        simp [Profile.withCharMems, h, lookup_append_singleton h, emptyBucket]
      · have hb : (c2 == c) = false := by simp [hc]
        have : (st.profile.character_memories ++ [(c, emptyBucket)]).lookup c2 =
            st.profile.character_memories.lookup c2 := by
          induction st.profile.character_memories with
          | nil => simp only [List.nil_append, List.lookup, hb]
          | cons kv t ih =>
              obtain ⟨k, v⟩ := kv
              cases hk : (c2 == k) with
              | true => simp only [List.cons_append, List.lookup, hk]
              | false => simp only [List.cons_append, List.lookup, hk]; exact ih
        simp [Profile.withCharMems, this]

/-- The near-duplicate relation always holds between a candidate and its own
freshly stamped `events` entry. -/
theorem nearDup_stamped (today content : String) :
    nearDup .events content (today ++ ": " ++ content) := by
  left
  have hdata : (today ++ ": " ++ content).data =
      today.data ++ ':' :: ' ' :: content.data := by
    simp [string_data_append]
  rcases stripStampChars_stamped today.data content.data with ⟨pre, hstrip⟩
  unfold normStored
  simp only [decide_True, if_true, hdata, hstrip, toLowerChars, List.map_append]
  exact isSub_suffix _ _

/-! ## Branch characterization of `add_character_memory` on string content -/

theorem addCharacterMemory_exactDup {today c : String} {mt : MType}
    {content : String} {st : PMState}
    (hA : (decide (mt = .events) && (memListOf st c mt).contains (today ++ ": " ++ content)) = true) :
    addCharacterMemory today c mt (.str content) st = (.ok false, ensureBucket c st) := by
  unfold memListOf at hA
  simp only [addCharacterMemory, lookup_ensure, Option.getD_some, pyStr]
  rw [if_pos hA]

theorem addCharacterMemory_nearDup {today c : String} {mt : MType}
    {content : String} {st : PMState}
    (hA : (decide (mt = .events) && (memListOf st c mt).contains (today ++ ": " ++ content)) = false)
    (hB : ((memListOf st c mt).any
      (fun e => dupCheck (decide (mt = .events)) (toLowerChars content.data) e.data)) = true) :
    addCharacterMemory today c mt (.str content) st = (.ok false, ensureBucket c st) := by
  unfold memListOf at hA hB
  simp only [addCharacterMemory, lookup_ensure, Option.getD_some, pyStr, pyLower]
  rw [if_neg (by rw [hA]; simp), if_pos hB]

theorem addCharacterMemory_fresh {today c : String} {mt : MType}
    {content : String} {st : PMState}
    (hA : (decide (mt = .events) && (memListOf st c mt).contains (today ++ ": " ++ content)) = false)
    (hB : ((memListOf st c mt).any
      (fun e => dupCheck (decide (mt = .events)) (toLowerChars content.data) e.data)) = false) :
    (mt = .events → (addCharacterMemory today c mt (.str content) st).1 = .ok true) ∧
    (mt ≠ .events → addCharacterMemory today c mt (.str content) st =
      (.error "UnboundLocalError: content_with_timestamp", ensureBucket c st)) := by
  unfold memListOf at hA hB
  simp only [addCharacterMemory, lookup_ensure, Option.getD_some, pyStr, pyLower]
  rw [if_neg (by rw [hA]; simp), if_neg (by rw [hB]; simp)]
  constructor
  · rintro rfl; rfl
  · intro hne; cases mt with
    | events => exact absurd rfl hne
    | topics => rfl
    | notes => rfl

/-- A duplicate report requires a non-empty list, hence an existing bucket. -/
theorem memListOf_ne_nil_isSome {st : PMState} {c : String} {mt : MType}
    (h : memListOf st c mt ≠ []) :
    (st.profile.character_memories.lookup c).isSome := by
  unfold memListOf at h
  cases hl : st.profile.character_memories.lookup c with
  | some b => rfl
  | none =>
      exfalso
      apply h
      rw [hl]
      cases mt <;> rfl

/-- C3: `add_character_memory` reports "not inserted" exactly when an
existing entry of the target list is a near duplicate of the candidate (one
normalized string a substring of the other), in which case the list and the
persistence log are untouched; a successful insert implies no existing entry
was a near duplicate. -/
theorem addCharacterMemory_duplicate_iff (st : PMState) (today c : String)
    (mt : MType) (content : String) :
    ((addCharacterMemory today c mt (.str content) st).1 = .ok false ↔
       ∃ e ∈ memListOf st c mt, nearDup mt content e)
    ∧ ((addCharacterMemory today c mt (.str content) st).1 = .ok false →
        memListOf (addCharacterMemory today c mt (.str content) st).2 c mt = memListOf st c mt ∧
        (addCharacterMemory today c mt (.str content) st).2.saves = st.saves)
    ∧ ((addCharacterMemory today c mt (.str content) st).1 = .ok true →
        ∀ e ∈ memListOf st c mt, ¬ nearDup mt content e) := by
  cases hA : (decide (mt = .events) && (memListOf st c mt).contains (today ++ ": " ++ content)) with
  | true =>
      rw [addCharacterMemory_exactDup hA]
      rw [Bool.and_eq_true] at hA
      obtain ⟨hmt, hcont⟩ := hA
      have hmt2 : mt = .events := of_decide_eq_true hmt
      subst hmt2
      have hmem : (today ++ ": " ++ content) ∈ memListOf st c .events := by
        simpa using hcont
      refine ⟨⟨fun _ => ⟨_, hmem, nearDup_stamped today content⟩, fun _ => rfl⟩, ?_, ?_⟩
      · intro _
        exact ⟨memListOf_ensure c st c .events, ensure_saves c st⟩
      · intro h
        exact absurd h (by simp)
  | false =>
      cases hB : ((memListOf st c mt).any
          fun e => dupCheck (decide (mt = .events)) (toLowerChars content.data) e.data) with
      | true =>
          rw [addCharacterMemory_nearDup hA hB]
          obtain ⟨e, hin, hd⟩ := List.any_eq_true.mp hB
          have hnd : nearDup mt content e := (dupCheck_iff _ _ _).mp hd
          refine ⟨⟨fun _ => ⟨e, hin, hnd⟩, fun _ => rfl⟩, ?_, ?_⟩
          · intro _
            exact ⟨memListOf_ensure c st c mt, ensure_saves c st⟩
          · intro h
            exact absurd h (by simp)
      | false =>
          have hnone : ∀ e ∈ memListOf st c mt, ¬ nearDup mt content e := by
            intro e he hnd
            have hd : dupCheck (decide (mt = .events)) (toLowerChars content.data) e.data = true :=
              (dupCheck_iff _ _ _).mpr hnd
            have hany : ((memListOf st c mt).any
                fun e2 => dupCheck (decide (mt = .events)) (toLowerChars content.data) e2.data) = true :=
              List.any_eq_true.mpr ⟨e, he, hd⟩
            rw [hB] at hany
            exact Bool.false_ne_true hany
          obtain ⟨hev, hnev⟩ := addCharacterMemory_fresh hA hB
          by_cases hmt : mt = .events
          · subst hmt
            have h1 := hev rfl
            refine ⟨⟨?_, ?_⟩, ?_, fun _ => hnone⟩
            · intro h
              rw [h1] at h
              exact absurd h (by simp)
            · rintro ⟨e, he, hnd⟩
              exact absurd hnd (hnone e he)
            · intro h
              rw [h1] at h
              exact absurd h (by simp)
          · rw [hnev hmt]
            refine ⟨⟨?_, ?_⟩, ?_, ?_⟩
            · intro h
              exact absurd h (by simp)
            · rintro ⟨e, he, hnd⟩
              exact absurd hnd (hnone e he)
            · intro h
              exact absurd h (by simp)
            · intro h
              exact absurd h (by simp)

/-- Witness for C3 at the spec's own example: with
`notes = ["Likes jazz music"]`, adding `"likes jazz"` is reported
"not inserted" and neither the list nor the persistence log changes. -/
theorem addCharacterMemory_duplicate_iff_witness :
    (addCharacterMemory "2025/01/01" "Aria" .notes (.str "likes jazz") jazzState).1 = .ok false ∧
    memListOf (addCharacterMemory "2025/01/01" "Aria" .notes (.str "likes jazz") jazzState).2 "Aria" .notes = ["Likes jazz music"] ∧
    (addCharacterMemory "2025/01/01" "Aria" .notes (.str "likes jazz") jazzState).2.saves = [] := by
  have h := addCharacterMemory_duplicate_iff jazzState "2025/01/01" "Aria" .notes "likes jazz"
  have hf := h.1.mpr ⟨"Likes jazz music", by decide, by decide⟩
  have hu := h.2.1 hf
  refine ⟨hf, ?_, ?_⟩
  · rw [hu.1]; rfl
  · rw [hu.2]; rfl

/-- C1 (code bug): for the `events` kind a fresh entry is stored as
`today ++ ": " ++ content` and reported inserted, but for `notes` (and
`topics`) a non-duplicate insert raises `UnboundLocalError` — the final
`memories.append(content_with_timestamp)` references a variable only
assigned in the `events` branch — instead of storing the raw content and
reporting insertion. -/
theorem addCharacterMemory_notes_topics_raise :
    addCharacterMemory "2026/10/12" "Aria" .notes (.str "hello") emptyState =
      (.error "UnboundLocalError: content_with_timestamp", ensureBucket "Aria" emptyState) ∧
    addCharacterMemory "2026/10/12" "Aria" .topics (.str "hello") emptyState =
      (.error "UnboundLocalError: content_with_timestamp", ensureBucket "Aria" emptyState) ∧
    (addCharacterMemory "2026/10/12" "Aria" .events (.str "Went to a concert") emptyState).1 = .ok true ∧
    memListOf (addCharacterMemory "2026/10/12" "Aria" .events (.str "Went to a concert") emptyState).2
      "Aria" .events = ["2026/10/12: Went to a concert"] :=
  ⟨rfl, rfl, rfl, rfl⟩

/-! ## Branch characterization of `add_character_memory` on arbitrary parsed
content (as invoked from extraction) -/

theorem addCM_exactDup {today c : String} {mt : MType} {content : Json}
    {st : PMState}
    (hA : (decide (mt = .events) && (memListOf st c mt).contains (today ++ ": " ++ pyStr content)) = true) :
    addCharacterMemory today c mt content st = (.ok false, ensureBucket c st) := by
  unfold memListOf at hA
  simp only [addCharacterMemory, lookup_ensure, Option.getD_some]
  rw [if_pos hA]

theorem addCM_lowerErr {today c : String} {mt : MType} {content : Json}
    {st : PMState} {err : String}
    (hA : (decide (mt = .events) && (memListOf st c mt).contains (today ++ ": " ++ pyStr content)) = false)
    (hL : pyLower content = .error err) :
    addCharacterMemory today c mt content st = (.error err, ensureBucket c st) := by
  unfold memListOf at hA
  simp only [addCharacterMemory, lookup_ensure, Option.getD_some]
  rw [if_neg (by rw [hA]; simp), hL]

theorem addCM_nearDup {today c : String} {mt : MType} {content : Json}
    {st : PMState} {cl : String}
    (hA : (decide (mt = .events) && (memListOf st c mt).contains (today ++ ": " ++ pyStr content)) = false)
    (hL : pyLower content = .ok cl)
    (hB : ((memListOf st c mt).any
      (fun e => dupCheck (decide (mt = .events)) cl.data e.data)) = true) :
    addCharacterMemory today c mt content st = (.ok false, ensureBucket c st) := by
  unfold memListOf at hA hB
  simp only [addCharacterMemory, lookup_ensure, Option.getD_some]
  rw [if_neg (by rw [hA]; simp), hL]
  exact if_pos hB

theorem addCM_fresh {today c : String} {mt : MType} {content : Json}
    {st : PMState} {cl : String}
    (hA : (decide (mt = .events) && (memListOf st c mt).contains (today ++ ": " ++ pyStr content)) = false)
    (hL : pyLower content = .ok cl)
    (hB : ((memListOf st c mt).any
      (fun e => dupCheck (decide (mt = .events)) cl.data e.data)) = false) :
    (mt = .events → (addCharacterMemory today c mt content st).1 = .ok true ∧
      (addCharacterMemory today c mt content st).2.saves = st.saves ++ [(addCharacterMemory today c mt content st).2.profile]) ∧
    (mt ≠ .events → addCharacterMemory today c mt content st =
      (.error "UnboundLocalError: content_with_timestamp", ensureBucket c st)) := by
  unfold memListOf at hA hB
  simp only [addCharacterMemory, lookup_ensure, Option.getD_some, hL]
  rw [if_neg (by rw [hA]; simp), if_neg (by rw [hB]; simp)]
  constructor
  · rintro rfl
    refine ⟨rfl, ?_⟩
    simp [saveProfile, ensure_saves]
  · intro hne
    cases mt with
    | events => exact absurd rfl hne
    | topics => rfl
    | notes => rfl

/-- C10: every mutating operation that reports failure / "not inserted"
leaves the entire manager state — in-memory Profile and persistence log —
exactly unchanged, and `add_character_memory` grows the persistence log only
when it reports a successful insert. -/
theorem failed_mutations_unpersisted (st : PMState) :
    (∀ item k, (addCommonPreference item k st).1 = false → (addCommonPreference item k st).2 = st)
    ∧ (∀ k, (deleteCommonInfo k st).1 = false → (deleteCommonInfo k st).2 = st)
    ∧ (∀ item k, (deleteCommonPreference item k st).1 = false → (deleteCommonPreference item k st).2 = st)
    ∧ (∀ c mt i, (deleteCharacterMemory c mt i st).1 = false → (deleteCharacterMemory c mt i st).2 = st)
    ∧ (∀ today c mt content,
        ((addCharacterMemory today c mt content st).1 = .ok false →
          (addCharacterMemory today c mt content st).2 = st)
        ∧ ((addCharacterMemory today c mt content st).2.saves ≠ st.saves →
          (addCharacterMemory today c mt content st).1 = .ok true)) := by
  refine ⟨?_, ?_, ?_, ?_, ?_⟩
  · intro item k
    simp only [addCommonPreference]
    split
    · intro _; rfl
    · split
      · intro _; rfl
      · intro h; exact absurd h (by simp)
  · intro k
    simp only [deleteCommonInfo]
    split
    · intro h; exact absurd h (by simp)
    · intro _; rfl
  · intro item k
    simp only [deleteCommonPreference]
    split
    · intro h; exact absurd h (by simp)
    · intro _; rfl
  · intro c mt i
    cases hl : st.profile.character_memories.lookup c with
    | none => simp only [deleteCharacterMemory, hl]; intros; trivial
    | some b =>
        simp only [deleteCharacterMemory, hl]
        split
        · intro h; exact absurd h (by simp)
        · intro _; rfl
  · intro today c mt content
    cases hA : (decide (mt = .events) && (memListOf st c mt).contains (today ++ ": " ++ pyStr content)) with
    | true =>
        rw [addCM_exactDup hA]
        rw [Bool.and_eq_true] at hA
        have hcont : (today ++ ": " ++ pyStr content) ∈ memListOf st c mt := by
          simpa using hA.2
        constructor
        · intro _
          exact ensure_of_some (memListOf_ne_nil_isSome (List.ne_nil_of_mem hcont))
        · intro hs
          exact absurd (ensure_saves c st) hs
    | false =>
        cases hL : pyLower content with
        | error e =>
            rw [addCM_lowerErr hA hL]
            constructor
            · intro h; exact absurd h (by simp)
            · intro hs; exact absurd (ensure_saves c st) hs
        | ok cl =>
            cases hB : ((memListOf st c mt).any
                (fun e => dupCheck (decide (mt = .events)) cl.data e.data)) with
            | true =>
                rw [addCM_nearDup hA hL hB]
                obtain ⟨e, he, -⟩ := List.any_eq_true.mp hB
                constructor
                · intro _
                  exact ensure_of_some (memListOf_ne_nil_isSome (List.ne_nil_of_mem he))
                · intro hs
                  exact absurd (ensure_saves c st) hs
            | false =>
                obtain ⟨hev, hnev⟩ := addCM_fresh hA hL hB
                by_cases hmt : mt = .events
                · subst hmt
                  obtain ⟨h1, h2⟩ := hev rfl
                  constructor
                  · intro h
                    rw [h1] at h
                    exact absurd h (by simp)
                  · intro _
                    exact h1
                · rw [hnev hmt]
                  constructor
                  · intro h; exact absurd h (by simp)
                  · intro hs; exact absurd (ensure_saves c st) hs

/-- Witness for C10: deleting an absent basic-info key from a fresh state,
and re-adding an existing preference up to case, both leave the state (and
its persistence log) untouched. -/
theorem failed_mutations_unpersisted_witness :
    (deleteCommonInfo "name" emptyState).2 = emptyState ∧
    (addCommonPreference "coffee" .likes
        (PMState.mk (Profile.mk (CommonProfile.mk [] (Preferences.mk ["Coffee"] [])) []) [])).2 =
      PMState.mk (Profile.mk (CommonProfile.mk [] (Preferences.mk ["Coffee"] [])) []) [] :=
  ⟨(failed_mutations_unpersisted emptyState).2.1 "name" rfl,
   (failed_mutations_unpersisted _).1 "coffee" .likes rfl⟩

/-! ## Preference invariant (C6) -/

theorem noCaseDups_append {l : List String} {item : String}
    (h : noCaseDups l)
    (hne : ∀ e ∈ l, toLowerChars e.data ≠ toLowerChars item.data) :
    noCaseDups (l ++ [item]) := by
  unfold noCaseDups at h ⊢
  rw [List.pairwise_append]
  refine ⟨h, List.pairwise_singleton _ _, ?_⟩
  intro a ha b hb
  simp only [List.mem_singleton] at hb
  subst hb
  exact hne a ha

theorem noCaseDups_erase {l : List String} (h : noCaseDups l) (item : String) :
    noCaseDups (l.erase item) :=
  h.sublist (List.erase_sublist item l)

theorem applyPrefOp_invariant (op : PrefOp) (st : PMState)
    (h : prefInvariant st) : prefInvariant (applyPrefOp op st) := by
  cases op with
  | add item k =>
      simp only [applyPrefOp, addCommonPreference]
      split
      · exact h
      · split
        · exact h
        · rename_i hc hany
          have hne : ∀ e ∈ st.profile.common_profile.preferences.get k,
              toLowerChars e.data ≠ toLowerChars item.data := by
            intro e he heq
            apply hany
            exact List.any_eq_true.mpr ⟨e, he, by simp [heq]⟩
          cases k with
          | likes =>
              exact ⟨noCaseDups_append h.1 hne, h.2⟩
          | dislikes =>
              exact ⟨h.1, noCaseDups_append h.2 hne⟩
  | del item k =>
      simp only [applyPrefOp, deleteCommonPreference]
      split
      · cases k with
        | likes => exact ⟨noCaseDups_erase h.1 item, h.2⟩
        | dislikes => exact ⟨h.1, noCaseDups_erase h.2 item⟩
      · exact h

theorem applyPrefOps_invariant (ops : List PrefOp) (st : PMState)
    (h : prefInvariant st) : prefInvariant (applyPrefOps ops st) := by
  induction ops generalizing st with
  | nil => exact h
  | cons op rest ih => exact ih _ (applyPrefOp_invariant op st h)

/-- C6: preference insertion is idempotent up to case — adding `"Coffee"`
then `"coffee"` keeps exactly one entry with the first insert's casing, the
second call reporting "not inserted" — and any sequence of preference
add/delete operations preserves the absence of case-insensitively-equal
pairs in both `likes` and `dislikes`. -/
theorem preference_idempotent_and_invariant :
    ((addCommonPreference "Coffee" .likes emptyState).1 = true
      ∧ (addCommonPreference "coffee" .likes (addCommonPreference "Coffee" .likes emptyState).2).1 = false
      ∧ (addCommonPreference "coffee" .likes (addCommonPreference "Coffee" .likes emptyState).2).2.profile.common_profile.preferences.likes = ["Coffee"])
    ∧ ∀ ops st, prefInvariant st → prefInvariant (applyPrefOps ops st) :=
  ⟨⟨rfl, rfl, rfl⟩, fun ops st h => applyPrefOps_invariant ops st h⟩

/-- Witness for C6: running adds (one a case-variant duplicate) and a delete
from the fresh state keeps the invariant. -/
theorem preference_idempotent_and_invariant_witness :
    prefInvariant (applyPrefOps
      [PrefOp.add "Coffee" .likes, PrefOp.add "coffee" .likes,
       PrefOp.add "tea" .dislikes, PrefOp.del "Coffee" .likes] emptyState) :=
  preference_idempotent_and_invariant.2 _ emptyState
    ⟨List.Pairwise.nil, List.Pairwise.nil⟩

/-! ## Legacy migration (C7) -/

/-- C7: loading a legacy flat document (no `common_profile` key) migrates it
to the nested shape, carrying over `basic_info` and the `preferences`
members verbatim, starting `character_memories` as the empty mapping and
keeping only `last_updated` of the remaining legacy keys (in particular
legacy `important_events` and `notes` are discarded); a document already
carrying both nested keys is returned unchanged. -/
theorem migrate_legacy_profile :
    (∀ (doc bi pr : List (String × Json)) (lk dk : Json),
       hasKey doc "common_profile" = false →
       doc.lookup "basic_info" = some (.obj bi) →
       doc.lookup "preferences" = some (.obj pr) →
       pr.lookup "likes" = some lk →
       pr.lookup "dislikes" = some dk →
       migrateToNewStructure doc =
         [("common_profile", .obj [("basic_info", .obj bi),
            ("preferences", .obj [("likes", lk), ("dislikes", dk)])]),
          ("character_memories", .obj []),
          ("last_updated", getDefault doc "last_updated" Json.null)])
    ∧ (∀ doc : List (String × Json),
        hasKey doc "common_profile" = true → hasKey doc "character_memories" = true →
        migrateToNewStructure doc = doc)
    ∧ migrateToNewStructure legacyAlexDoc =
        [("common_profile", .obj [("basic_info", .obj [("name", .str "Alex")]),
           ("preferences", .obj [("likes", .arr [.str "tea"]), ("dislikes", .arr [])])]),
         ("character_memories", .obj []),
         ("last_updated", Json.null)] := by
  refine ⟨?_, ?_, rfl⟩
  · intro doc bi pr lk dk hcp hbi hpr hlk hdk
    unfold migrateToNewStructure
    rw [if_neg (by rw [hcp]; simp)]
    simp only [getDefault, hbi, hpr, hlk, hdk]
  · intro doc h1 h2
    unfold migrateToNewStructure
    rw [if_pos (by rw [h1, h2]; rfl)]

/-- Witness for C7: a legacy flat document with basic info, both preference
lists, and a legacy `notes` key migrates to exactly the nested shape. -/
theorem migrate_legacy_profile_witness :
    migrateToNewStructure
      [("basic_info", .obj [("name", .str "Alex")]),
       ("preferences", .obj [("likes", .arr [.str "tea"]), ("dislikes", .arr [.str "noise"])]),
       ("notes", .arr [.str "legacy note"])] =
      [("common_profile", .obj [("basic_info", .obj [("name", .str "Alex")]),
         ("preferences", .obj [("likes", .arr [.str "tea"]), ("dislikes", .arr [.str "noise"])])]),
       ("character_memories", .obj []),
       ("last_updated", Json.null)] :=
  migrate_legacy_profile.1 _ _ _ _ _ rfl rfl rfl rfl rfl

/-! ## Context assembly (C9) -/

theorem ne_of_data_head {s t : String} (h : s.data.head? ≠ t.data.head?) :
    s ≠ t :=
  fun he => h (by rw [he])

theorem str_append_assoc (a b c : String) : (a ++ b) ++ c = a ++ (b ++ c) := by
  apply congrArg String.mk
  show (a.data ++ b.data) ++ c.data = a.data ++ (b.data ++ c.data)
  exact List.append_assoc a.data b.data c.data

theorem joinSep_cons_ex (sep first : String) (rest : List String) :
    ∃ t : String, joinSep sep (first :: rest) = first ++ t := by
  cases rest with
  | nil =>
      refine ⟨"", ?_⟩
      show first = first ++ ""
      apply congrArg String.mk
      show first.data = first.data ++ []
      simp
  | cons b t =>
      exact ⟨sep ++ joinSep sep (b :: t), str_append_assoc _ _ _⟩

theorem joinSep_cons_head {first : String} {c0 : Char} {d : List Char}
    (sep : String) (rest : List String) (hf : first.data = c0 :: d) :
    (joinSep sep (first :: rest)).data.head? = some c0 := by
  obtain ⟨t, ht⟩ := joinSep_cons_ex sep first rest
  rw [ht, string_data_append, hf]
  rfl

theorem commonSummary_of_empty {p : Profile} (h : commonEmpty p) :
    getCommonProfileSummary p = noInfoSentinel := by
  obtain ⟨h1, h2, h3⟩ := h
  simp [getCommonProfileSummary, h1, h2, h3]

theorem str_ext {s t : String} (h : s.data = t.data) : s = t := by
  cases s
  cases t
  cases h
  rfl

theorem commonSummary_ne_sentinel {p : Profile} (h : ¬ commonEmpty p) :
    getCommonProfileSummary p ≠ noInfoSentinel := by
  rcases hbi : p.common_profile.basic_info with _ | ⟨kv, bis⟩
  · rcases hlk : p.common_profile.preferences.likes with _ | ⟨lk0, lks⟩
    · rcases hdk : p.common_profile.preferences.dislikes with _ | ⟨dk0, dks⟩
      · exact absurd ⟨hbi, hlk, hdk⟩ h
      · have hred : getCommonProfileSummary p =
            joinSep "\n" [("\n【苦手なもの】\n- " ++ joinSep "、" (dk0 :: dks))] := by
          simp [getCommonProfileSummary, hbi, hlk, hdk]
        rw [hred]
        apply ne_of_data_head
        rw [joinSep_cons_head _ _
          (show ("\n【苦手なもの】\n- " ++ joinSep "、" (dk0 :: dks)).data =
            '\n' :: (("【苦手なもの】\n- ").data ++ (joinSep "、" (dk0 :: dks)).data) from
            by rw [string_data_append]; rfl)]
        decide
    · have hred : getCommonProfileSummary p =
          joinSep "\n" (("\n【好きなもの】\n- " ++ joinSep "、" (lk0 :: lks)) ::
            (if p.common_profile.preferences.dislikes.isEmpty then []
             else ["\n【苦手なもの】\n- " ++ joinSep "、" p.common_profile.preferences.dislikes])) := by
        simp [getCommonProfileSummary, hbi, hlk]
      rw [hred]
      apply ne_of_data_head
      rw [joinSep_cons_head _ _
        (show ("\n【好きなもの】\n- " ++ joinSep "、" (lk0 :: lks)).data =
          '\n' :: (("【好きなもの】\n- ").data ++ (joinSep "、" (lk0 :: lks)).data) from
          by rw [string_data_append]; rfl)]
      decide
  · have hred : getCommonProfileSummary p =
        joinSep "\n" ("【基本情報】" ::
          ((kv :: bis).map (fun kv2 => "- " ++ kv2.1 ++ ": " ++ pyStr kv2.2) ++
           (if p.common_profile.preferences.likes.isEmpty then []
            else ["\n【好きなもの】\n- " ++ joinSep "、" p.common_profile.preferences.likes]) ++
           (if p.common_profile.preferences.dislikes.isEmpty then []
            else ["\n【苦手なもの】\n- " ++ joinSep "、" p.common_profile.preferences.dislikes]))) := by
      simp [getCommonProfileSummary, hbi, List.append_assoc]
    rw [hred]
    apply ne_of_data_head
    rw [joinSep_cons_head _ _
      (show ("【基本情報】" : String).data = '【' :: ("基本情報】" : String).data from rfl)]
    decide

theorem commonSummary_sentinel_iff (p : Profile) :
    getCommonProfileSummary p = noInfoSentinel ↔ commonEmpty p := by
  constructor
  · intro h
    by_contra hne
    exact commonSummary_ne_sentinel hne h
  · exact commonSummary_of_empty

theorem charSummary_of_empty {p : Profile} {c : String} (h : charMemoryEmpty p c) :
    getCharacterMemorySummary p c = noMemorySentinel := by
  rcases h with h | h
  · simp [getCharacterMemorySummary, h]
  · simp [getCharacterMemorySummary, h, emptyBucket]

theorem charSummary_ne_sentinel {p : Profile} {c : String}
    (h : ¬ charMemoryEmpty p c) :
    getCharacterMemorySummary p c ≠ noMemorySentinel := by
  cases hl : p.character_memories.lookup c with
  | none => exact absurd (Or.inl hl) h
  | some b =>
      rcases htp : b.topics with _ | ⟨t0, ts⟩
      · rcases hev : b.events with _ | ⟨e0, es⟩
        · rcases hnt : b.notes with _ | ⟨n0, ns⟩
          · exfalso
            apply h
            right
            rw [hl]
            cases b
            simp_all [emptyBucket]
          · have hred : getCharacterMemorySummary p c =
                joinSep "\n" ("\n【メモ】" :: (n0 :: ns).map (fun n => "- " ++ n)) := by
              simp [getCharacterMemorySummary, hl, htp, hev, hnt]
            rw [hred]
            apply ne_of_data_head
            rw [joinSep_cons_head _ _
              (show ("\n【メモ】" : String).data = '\n' :: ("【メモ】" : String).data from rfl)]
            decide
        · have hred : getCharacterMemorySummary p c =
              joinSep "\n" ("\n【重要な出来事】" ::
                (((e0 :: es).drop ((e0 :: es).length - 5)).map (fun e => "- " ++ e) ++
                 (if b.notes.isEmpty then []
                  else "\n【メモ】" :: b.notes.map (fun n => "- " ++ n)))) := by
            simp [getCharacterMemorySummary, hl, htp, hev, List.append_assoc]
          rw [hred]
          apply ne_of_data_head
          rw [joinSep_cons_head _ _
            (show ("\n【重要な出来事】" : String).data = '\n' :: ("【重要な出来事】" : String).data from rfl)]
          decide
      · have hred : getCharacterMemorySummary p c =
            joinSep "\n" ("【話したトピック】" ::
              ((t0 :: ts).map (fun t => "- " ++ t) ++
               ((if b.events.isEmpty then []
                 else "\n【重要な出来事】" ::
                   ((b.events.drop (b.events.length - 5)).map (fun e => "- " ++ e))) ++
                (if b.notes.isEmpty then []
                 else "\n【メモ】" :: b.notes.map (fun n => "- " ++ n))))) := by
          simp [getCharacterMemorySummary, hl, htp, List.append_assoc]
        rw [hred]
        apply ne_of_data_head
        rw [joinSep_cons_head _ _
          (show ("【話したトピック】" : String).data = '【' :: ("話したトピック】" : String).data from rfl)]
        decide

theorem charSummary_sentinel_iff (p : Profile) (c : String) :
    getCharacterMemorySummary p c = noMemorySentinel ↔ charMemoryEmpty p c := by
  constructor
  · intro h
    by_contra hne
    exact charSummary_ne_sentinel hne h
  · exact charSummary_of_empty

/-- C9: `get_full_context_for_character` returns `None` (absent, never an
empty-but-present string) exactly when both the common-profile summary and
the character's memory summary are empty, and otherwise returns the
header-introduced concatenation of whichever summaries are non-empty. -/
theorem fullContext_absent_iff_empty (p : Profile) (c : String) :
    (getFullContextForCharacter p c = none ↔ commonEmpty p ∧ charMemoryEmpty p c)
    ∧ (¬ commonEmpty p → charMemoryEmpty p c →
        getFullContextForCharacter p c =
          some ("【ユーザーの基本情報（全キャラクター共通）】" ++ "\n" ++ getCommonProfileSummary p))
    ∧ (commonEmpty p → ¬ charMemoryEmpty p c →
        getFullContextForCharacter p c =
          some ("\n【" ++ c ++ "との記憶】" ++ "\n" ++ getCharacterMemorySummary p c))
    ∧ (¬ commonEmpty p → ¬ charMemoryEmpty p c →
        getFullContextForCharacter p c =
          some ("【ユーザーの基本情報（全キャラクター共通）】" ++ "\n" ++ getCommonProfileSummary p
            ++ "\n" ++ ("\n【" ++ c ++ "との記憶】") ++ "\n" ++ getCharacterMemorySummary p c)) := by
  refine ⟨⟨?_, ?_⟩, ?_, ?_, ?_⟩
  · intro h
    simp only [getFullContextForCharacter] at h
    by_cases h1 : getCommonProfileSummary p = noInfoSentinel
    · by_cases h2 : getCharacterMemorySummary p c = noMemorySentinel
      · exact ⟨(commonSummary_sentinel_iff p).mp h1, (charSummary_sentinel_iff p c).mp h2⟩
      · have c1 : ¬ (getCommonProfileSummary p ≠ noInfoSentinel) := by simp [h1]
        rw [if_neg c1, if_pos h2] at h
        simp at h
    · rw [if_pos h1] at h
      simp at h
  · rintro ⟨h1, h2⟩
    have hs1 := commonSummary_of_empty h1
    have hs2 := charSummary_of_empty h2
    have c1 : ¬ (getCommonProfileSummary p ≠ noInfoSentinel) := by simp [hs1]
    have c2 : ¬ (getCharacterMemorySummary p c ≠ noMemorySentinel) := by simp [hs2]
    simp only [getFullContextForCharacter]
    rw [if_neg c1, if_neg c2]
    rfl
  · intro h1 h2
    have hn1 := commonSummary_ne_sentinel h1
    have hs2 := charSummary_of_empty h2
    have c2 : ¬ (getCharacterMemorySummary p c ≠ noMemorySentinel) := by simp [hs2]
    simp only [getFullContextForCharacter]
    rw [if_pos hn1, if_neg c2]
    simp [joinSep]
  · intro h1 h2
    have hs1 := commonSummary_of_empty h1
    have hn2 := charSummary_ne_sentinel h2
    have c1 : ¬ (getCommonProfileSummary p ≠ noInfoSentinel) := by simp [hs1]
    simp only [getFullContextForCharacter]
    rw [if_neg c1, if_pos hn2]
    apply congrArg Option.some
    apply str_ext
    simp [joinSep, string_data_append, List.append_assoc]
  · intro h1 h2
    have hn1 := commonSummary_ne_sentinel h1
    have hn2 := charSummary_ne_sentinel h2
    simp only [getFullContextForCharacter]
    rw [if_pos hn1, if_pos hn2]
    apply congrArg Option.some
    apply str_ext
    simp [joinSep, string_data_append, List.append_assoc]

/-- Witness for C9: a fresh profile yields an absent context; a profile with
one basic-info pair and one like but no character memory yields exactly the
common block. -/
theorem fullContext_absent_iff_empty_witness :
    getFullContextForCharacter emptyProfile "Aria" = none ∧
    getFullContextForCharacter ⟨⟨[("name", .str "Alex")], ⟨["tea"], []⟩⟩, []⟩ "Aria" =
      some ("【ユーザーの基本情報（全キャラクター共通）】" ++ "\n" ++
        getCommonProfileSummary ⟨⟨[("name", .str "Alex")], ⟨["tea"], []⟩⟩, []⟩) :=
  ⟨(fullContext_absent_iff_empty emptyProfile "Aria").1.mpr
      ⟨⟨rfl, rfl, rfl⟩, Or.inl rfl⟩,
   (fullContext_absent_iff_empty _ "Aria").2.1
      (by intro h; exact absurd h.1 (by simp)) (Or.inl rfl)⟩

/-! ## Compaction (C4, C8) -/

theorem compactOne_small {api : String → Except String String} {c : String}
    {mt : MType} {items : List String} (h : items.length ≤ 10) :
    compactOne api c mt items = (items, ⟨0, 0⟩) := by
  unfold compactOne
  rw [if_pos h]

theorem compactOne_mid {api : String → Except String String} {c : String}
    {mt : MType} {items : List String} (h : items.length > 10)
    (h2 : (dedupMems (mt = .events) items []).length ≤ 50) :
    compactOne api c mt items =
      (dedupMems (mt = .events) items [],
       ⟨items.length - (dedupMems (mt = .events) items []).length, 0⟩) := by
  unfold compactOne
  rw [if_neg (by omega), if_neg (by omega)]

theorem compactOne_large {api : String → Except String String} {c : String}
    {mt : MType} {items : List String} (h : items.length > 10)
    (h2 : (dedupMems (mt = .events) items []).length > 50) :
    compactOne api c mt items =
      (("[要約] " ++ summarizeMemories api c mt
          ((dedupMems (mt = .events) items []).take
            ((dedupMems (mt = .events) items []).length - 20))) ::
        (dedupMems (mt = .events) items []).drop
          ((dedupMems (mt = .events) items []).length - 20),
       ⟨items.length - (dedupMems (mt = .events) items []).length,
        ((dedupMems (mt = .events) items []).take
          ((dedupMems (mt = .events) items []).length - 20)).length⟩) := by
  unfold compactOne
  rw [if_neg (by omega), if_pos h2]

theorem compactOne_large_stats {api : String → Except String String} {c : String}
    {mt : MType} {items : List String} (h : items.length > 10)
    (h2 : (dedupMems (mt = .events) items []).length > 50) :
    (compactOne api c mt items).1.length = 21 ∧
    (compactOne api c mt items).2.summarized =
      (dedupMems (mt = .events) items []).length - 20 := by
  rw [compactOne_large h h2]
  constructor
  · simp only [List.length_cons, List.length_drop]
    omega
  · simp only [List.length_take]
    omega

theorem lookup_setChar (l : List (String × Bucket)) (c : String) (b : Bucket) :
    (setChar c b l).lookup c = some b := by
  induction l with
  | nil => simp [setChar, List.lookup]
  | cons kv t ih =>
      obtain ⟨c2, b2⟩ := kv
      unfold setChar
      cases hc : (c2 == c) with
      | true => simp [List.lookup]
      | false =>
          have : (c == c2) = false := by
            simp only [beq_eq_false_iff_ne] at hc ⊢
            exact fun he => hc he.symm
          simp only [List.lookup, this]
          exact ih

theorem optimizeMemories_some {api : String → Except String String} {c : String}
    {st : PMState} {b : Bucket}
    (h : st.profile.character_memories.lookup c = some b) :
    (optimizeMemories api c st).1 =
      ⟨(compactOne api c .topics b.topics).2.deleted +
        (compactOne api c .events b.events).2.deleted +
        (compactOne api c .notes b.notes).2.deleted,
       (compactOne api c .topics b.topics).2.summarized +
        (compactOne api c .events b.events).2.summarized +
        (compactOne api c .notes b.notes).2.summarized⟩ ∧
    (optimizeMemories api c st).2.profile.character_memories.lookup c =
      some ⟨(compactOne api c .topics b.topics).1,
        (compactOne api c .events b.events).1,
        (compactOne api c .notes b.notes).1⟩ ∧
    (optimizeMemories api c st).2.saves = st.saves ++ [(optimizeMemories api c st).2.profile] := by
  simp only [optimizeMemories, h]
  refine ⟨by trivial, ?_, by trivial⟩
  simp only [saveProfile, Profile.withCharMems]
  exact lookup_setChar _ _ _

/-- C4: compaction processes the three lists independently: a list of at
most 10 entries is untouched with zero counts; a longer list is exactly
deduplicated (stamp-stripped, case-insensitive, first occurrences kept in
order); if more than 50 unique entries remain, everything except the newest
20 is replaced by the single entry `"[要約] " ++ <summary text>` prepended
before them, giving 21 entries, with the summarized count the size of the
replaced partition (40 for a 60-entry duplicate-free list). -/
theorem optimizeMemories_compaction_spec :
    (∀ (api : String → Except String String) (c : String) (mt : MType)
        (items : List String), items.length ≤ 10 →
        compactOne api c mt items = (items, ⟨0, 0⟩))
    ∧ (∀ api c mt (items : List String), items.length > 10 →
        (dedupMems (mt = .events) items []).length ≤ 50 →
        compactOne api c mt items =
          (dedupMems (mt = .events) items [],
           ⟨items.length - (dedupMems (mt = .events) items []).length, 0⟩))
    ∧ (∀ api c mt (items : List String), items.length > 10 →
        (dedupMems (mt = .events) items []).length > 50 →
        compactOne api c mt items =
          (("[要約] " ++ summarizeMemories api c mt
              ((dedupMems (mt = .events) items []).take
                ((dedupMems (mt = .events) items []).length - 20))) ::
            (dedupMems (mt = .events) items []).drop
              ((dedupMems (mt = .events) items []).length - 20),
           ⟨items.length - (dedupMems (mt = .events) items []).length,
            ((dedupMems (mt = .events) items []).take
              ((dedupMems (mt = .events) items []).length - 20)).length⟩))
    ∧ (∀ api c mt (items : List String),
        dedupMems (mt = .events) items [] = items → items.length = 60 →
        (compactOne api c mt items).1.length = 21 ∧
        (compactOne api c mt items).2.summarized = 40)
    ∧ (∀ api c st (b : Bucket),
        st.profile.character_memories.lookup c = some b →
        (optimizeMemories api c st).1 =
          ⟨(compactOne api c .topics b.topics).2.deleted +
            (compactOne api c .events b.events).2.deleted +
            (compactOne api c .notes b.notes).2.deleted,
           (compactOne api c .topics b.topics).2.summarized +
            (compactOne api c .events b.events).2.summarized +
            (compactOne api c .notes b.notes).2.summarized⟩ ∧
        (optimizeMemories api c st).2.profile.character_memories.lookup c =
          some ⟨(compactOne api c .topics b.topics).1,
            (compactOne api c .events b.events).1,
            (compactOne api c .notes b.notes).1⟩) := by
  refine ⟨fun api c mt items h => compactOne_small h,
    fun api c mt items h h2 => compactOne_mid h h2,
    fun api c mt items h h2 => compactOne_large h h2,
    ?_,
    fun api c st b h => ⟨(optimizeMemories_some h).1, (optimizeMemories_some h).2.1⟩⟩
  intro api c mt items hded hlen
  have h10 : items.length > 10 := by omega
  have h50 : (dedupMems (mt = .events) items []).length > 50 := by
    rw [hded]; omega
  obtain ⟨hl, hs⟩ := @compactOne_large_stats api c mt items h10 h50
  refine ⟨hl, ?_⟩
  rw [hs, hded, hlen]

/-- Witness for C4: the 60-entry duplicate-free topics list compacts to 21
entries with 40 summarized; a 2-entry list is untouched. -/
theorem optimizeMemories_compaction_spec_witness :
    (compactOne (fun _ => .ok "S") "Aria" .topics m60).1.length = 21 ∧
    (compactOne (fun _ => .ok "S") "Aria" .topics m60).2.summarized = 40 ∧
    compactOne (fun _ => .ok "S") "Aria" .topics ["a", "b"] = (["a", "b"], ⟨0, 0⟩) :=
  ⟨(optimizeMemories_compaction_spec.2.2.2.1 _ "Aria" .topics m60 rfl rfl).1,
   (optimizeMemories_compaction_spec.2.2.2.1 _ "Aria" .topics m60 rfl rfl).2,
   optimizeMemories_compaction_spec.1 _ "Aria" .topics ["a", "b"] (by simp)⟩

/-- C8: compaction never fails the caller — `optimize_memories` is total by
construction — and when the summarization capability errors,
`_summarize_memories` substitutes the synthetic fallback
`"<count>件の<type-name>（詳細は省略）"`, which compaction prepends as the
usual `"[要約] "` entry before the newest 20. -/
theorem summarize_fallback_on_error :
    (∀ (api : String → Except String String) c mt (items : List String) err,
        api (summarizePrompt c mt items) = .error err →
        summarizeMemories api c mt items =
          toString items.length ++ "件の" ++ typeName mt ++ "（詳細は省略）")
    ∧ (∀ err c mt (items : List String), items.length > 10 →
        (dedupMems (mt = .events) items []).length > 50 →
        (compactOne (fun _ => Except.error err) c mt items).1 =
          ("[要約] " ++ (toString ((dedupMems (mt = .events) items []).take
              ((dedupMems (mt = .events) items []).length - 20)).length ++
            "件の" ++ typeName mt ++ "（詳細は省略）")) ::
          (dedupMems (mt = .events) items []).drop
            ((dedupMems (mt = .events) items []).length - 20)) := by
  constructor
  · intro api c mt items err h
    unfold summarizeMemories
    rw [h]
  · intro err c mt items h h2
    rw [compactOne_large h h2]
    simp only [summarizeMemories]

/-- Witness for C8: with a failing capability, the 60-entry topics list still
compacts, its summary entry being the synthetic fallback for the replaced 40
entries. -/
theorem summarize_fallback_on_error_witness :
    summarizeMemories (fun _ => .error "boom") "Aria" .topics ["a"] = "1件の話題（詳細は省略）" ∧
    (compactOne (fun _ => Except.error "boom") "Aria" .topics m60).1.head? =
      some "[要約] 40件の話題（詳細は省略）" := by
  constructor
  · exact summarize_fallback_on_error.1 _ "Aria" .topics ["a"] "boom" rfl
  · rw [summarize_fallback_on_error.2 "boom" "Aria" .topics m60 (by decide) (by decide)]
    rfl

/-! ## Extraction no-op and partial-application behaviour (C2, C5) -/

theorem extract_noop_short {today c : String} {messages : List Msg}
    {response : Except String String} {jsonLoads : String → Except String Json}
    {st : PMState} (h : messages.length < 4) :
    extractInfoFromConversation today c messages response jsonLoads st = st := by
  unfold extractInfoFromConversation
  rw [if_pos h]

theorem extract_noop_apiError {today c : String} {messages : List Msg}
    {jsonLoads : String → Except String Json} {st : PMState} {e : String} :
    extractInfoFromConversation today c messages (.error e) jsonLoads st = st := by
  unfold extractInfoFromConversation
  split
  · rfl
  · rfl

theorem extract_noop_parseError {today c : String} {messages : List Msg}
    {jsonLoads : String → Except String Json} {st : PMState} {raw e : String}
    (h : jsonLoads (extractResultText raw) = .error e) :
    extractInfoFromConversation today c messages (.ok raw) jsonLoads st = st := by
  unfold extractInfoFromConversation
  split
  · rfl
  · simp only [h]

/-- C2 counterexample: a syntactically valid but wrong-shaped extraction
result (`likes` well-formed, `dislikes` a number) is partially applied —
`"tea"` is added to the likes and the Profile persisted once — before the
shape error is swallowed, contradicting "no partial application, no
persistence" for malformed responses. -/
theorem extraction_partial_application_cex :
    (extractInfoFromConversation "2026/10/12" "Aria" msgs4 (.ok "x")
        (fun _ => .ok badShapeJson) emptyState).profile.common_profile.preferences.likes = ["tea"] ∧
    (extractInfoFromConversation "2026/10/12" "Aria" msgs4 (.ok "x")
        (fun _ => .ok badShapeJson) emptyState).saves.length = 1 :=
  ⟨rfl, rfl⟩

/-- C2 (amended): a capability error or a response whose text fails JSON
parsing is discarded entirely — no mutation, no persistence, no surfaced
error (the operation is total); a response that parses but has a wrong
shape applies and persists the fields processed before the first shape
error (see the counterexample) while later fields are discarded silently. -/
theorem extraction_discard_on_parse_failure :
    (∀ (today c : String) (messages : List Msg)
        (jsonLoads : String → Except String Json) (st : PMState) (raw e : String),
        jsonLoads (extractResultText raw) = .error e →
        extractInfoFromConversation today c messages (.ok raw) jsonLoads st = st ∧
        (extractInfoFromConversation today c messages (.ok raw) jsonLoads st).saves = st.saves)
    ∧ (∀ (today c : String) (messages : List Msg)
        (jsonLoads : String → Except String Json) (st : PMState) (e : String),
        extractInfoFromConversation today c messages (.error e) jsonLoads st = st) :=
  ⟨fun _ _ _ _ _ _ _ h => ⟨extract_noop_parseError h, by rw [extract_noop_parseError h]⟩,
   fun _ _ _ _ _ _ => extract_noop_apiError⟩

/-- Witness for the amended C2: a non-JSON response text leaves a fresh
state untouched. -/
theorem extraction_discard_on_parse_failure_witness :
    extractInfoFromConversation "2026/10/12" "Aria" msgs4 (.ok "plain prose reply")
      (fun _ => .error "Expecting value") emptyState = emptyState :=
  (extraction_discard_on_parse_failure.1 "2026/10/12" "Aria" msgs4
    (fun _ => .error "Expecting value") emptyState "plain prose reply" "Expecting value" rfl).1

/-- C5: extraction is a no-op below 4 transcript entries, and neither a
capability error nor non-JSON response text mutates the Profile — the
operation returns normally (it is total, so no error can propagate). -/
theorem extraction_noop_short_or_unparsed :
    (∀ (today c : String) (messages : List Msg) (response : Except String String)
        (jsonLoads : String → Except String Json) (st : PMState),
        messages.length < 4 →
        extractInfoFromConversation today c messages response jsonLoads st = st)
    ∧ (∀ (today c : String) (messages : List Msg)
        (jsonLoads : String → Except String Json) (st : PMState) (e : String),
        extractInfoFromConversation today c messages (.error e) jsonLoads st = st)
    ∧ (∀ (today c : String) (messages : List Msg)
        (jsonLoads : String → Except String Json) (st : PMState) (raw e : String),
        jsonLoads (extractResultText raw) = .error e →
        extractInfoFromConversation today c messages (.ok raw) jsonLoads st = st) :=
  ⟨fun _ _ _ _ _ _ h => extract_noop_short h,
   fun _ _ _ _ _ _ => extract_noop_apiError,
   fun _ _ _ _ _ _ _ h => extract_noop_parseError h⟩

/-- Witness for C5: a 2-entry transcript is a no-op, and a 4-entry
transcript with unparsable response text mutates nothing. -/
theorem extraction_noop_short_or_unparsed_witness :
    extractInfoFromConversation "2026/10/12" "Aria" [⟨"user", "hi"⟩, ⟨"assistant", "yo"⟩]
      (.ok "ignored") (fun _ => .ok (.obj [])) jazzState = jazzState ∧
    extractInfoFromConversation "2026/10/12" "Aria" msgs4 (.ok "plain prose")
      (fun _ => .error "Expecting value") jazzState = jazzState :=
  ⟨extraction_noop_short_or_unparsed.1 "2026/10/12" "Aria" _ _ _ jazzState (by decide),
   extraction_noop_short_or_unparsed.2.2 "2026/10/12" "Aria" msgs4 _ jazzState
     "plain prose" "Expecting value" rfl⟩

end AIChat
